import Mathlib

set_option maxRecDepth 16384

/-!
# Verification of the stocklib document-acquisition pipeline

This file gives a shallow embedding, in Lean 4, of the core logic of
`src/app.py` (the screener.in investor-document downloader), and proves or
refutes the frozen specification claims about it.

Modelling conventions:

* Python strings are Lean `String`s / `List Char`; Python `bytes` are
  `List Nat` (one `Nat` per byte, values < 256 for real inputs).
* Python regular-expression guards are embedded as explicit character-list
  matchers.  `re.match(r'^pat$', s)` in Python succeeds both when `s` matches
  `pat` exactly and when `s` is a match of `pat` followed by a single trailing
  `'\n'` (CPython `$` semantics); the embedding keeps that behaviour.
* Python `\d` / `\w` are modelled by their ASCII meaning (`Char.isDigit`,
  alphanumeric-or-underscore); the source never relies on non-ASCII digits.
* Network and filesystem effects (HTTP GETs, Selenium, streaming to disk) are
  nondeterministic from the program's point of view; they are embedded as
  explicit "transport outcome" values passed to the embedded functions, which
  then perform the same classification, validation and cleanup decisions as
  the source.  Whether the destination file exists after a call is tracked as
  an explicit boolean component of the result.
-/

/-! ## Basic character and string helpers -/

/-- ASCII whitespace, as stripped by Python `str.strip()` / `bytes.strip()`:
space, tab, newline, carriage return, vertical tab, form feed. -/
def isPySpace (c : Char) : Bool :=
  c = ' ' || c = '\t' || c = '\n' || c = '\x0d' || c = '\x0b' || c = '\x0c'

/-- Python `str.strip()` on a character list (ASCII whitespace model). -/
def pyStripChars (cs : List Char) : List Char :=
  ((cs.dropWhile isPySpace).reverse.dropWhile isPySpace).reverse

/-- Python `str.strip()`. -/
def pyStrip (s : String) : String :=
  ⟨pyStripChars s.data⟩

/-- Python `str.lower()` (ASCII model). -/
def pyLower (s : String) : String :=
  ⟨s.data.map Char.toLower⟩

/-- Python word character (`\w`), ASCII model: letters, digits, underscore. -/
def isWordChar (c : Char) : Bool :=
  c.isAlphanum || c = '_'

/-- Python single-character `str.split(sep)` on character lists. -/
def pySplitChars (sep : Char) : List Char → List (List Char)
  | [] => [[]]
  | c :: cs =>
    let r := pySplitChars sep cs
    if c = sep then
      [] :: r
    else
      match r with
      | [] => [[c]]
      | h :: t => (c :: h) :: t

/-- Python single-character `str.split(sep)`. -/
def pySplit (sep : Char) (s : String) : List String :=
  (pySplitChars sep s.data).map String.mk

/-- Substring test on character lists (Python `needle in hay`). -/
def containsSub (needle : List Char) : List Char → Bool
  | [] => needle.isEmpty
  | c :: cs => needle.isPrefixOf (c :: cs) || containsSub needle cs

/-- Python `needle in hay` on strings. -/
def strContains (hay needle : String) : Bool :=
  containsSub needle.data hay.data

/-! ## Decimal rendering of naturals (Python `str(n)` / f-string)

Implemented with explicit fuel so that the kernel can evaluate it, together
with a value-parser used to prove injectivity. -/

/-- Decimal digit character for a value `< 10`. -/
def decDigitChar (n : Nat) : Char :=
  Char.ofNat (48 + n)

/-- Fuelled most-significant-first decimal digit rendering. -/
def decRenderFuel : Nat → Nat → List Char
  | 0, _ => []
  | fuel + 1, n =>
    if n < 10 then [decDigitChar n]
    else decRenderFuel fuel (n / 10) ++ [decDigitChar (n % 10)]

/-- Python `str(n)` for a natural number: decimal notation, no sign,
no leading zeros. -/
def natRepr (n : Nat) : String :=
  ⟨decRenderFuel (n + 1) n⟩

/-- Numeric value of a decimal digit character. -/
def decCharVal (c : Char) : Nat :=
  c.toNat - 48

/-- Parse a most-significant-first decimal digit list back to a value. -/
def decValue (cs : List Char) : Nat :=
  cs.foldl (fun a c => 10 * a + decCharVal c) 0

theorem decValue_append (cs : List Char) (c : Char) :
    ∀ a : Nat, (cs ++ [c]).foldl (fun a c => 10 * a + decCharVal c) a =
      10 * cs.foldl (fun a c => 10 * a + decCharVal c) a + decCharVal c := by
  induction cs with
  | nil => intro a; rfl
  | cons x xs ih => intro a; simp only [List.cons_append, List.foldl]; exact ih _

theorem decCharVal_decDigitChar (n : Nat) (h : n < 10) :
    decCharVal (decDigitChar n) = n := by
  interval_cases n <;> decide

theorem decValue_decRenderFuel :
    ∀ fuel n, n < 10 ^ fuel → decValue (decRenderFuel fuel n) = n := by
  intro fuel
  induction fuel with
  | zero =>
    intro n h
    simp only [pow_zero, Nat.lt_one_iff] at h
    subst h
    rfl
  | succ f ih =>
    intro n h
    by_cases hn : n < 10
    · simp only [decRenderFuel, if_pos hn, decValue, List.foldl]
      simpa using decCharVal_decDigitChar n hn
    · simp only [decRenderFuel, if_neg hn, decValue] at *
      rw [decValue_append]
      have hdiv : n / 10 < 10 ^ f := by
        rw [Nat.div_lt_iff_lt_mul (by norm_num)]
        calc n < 10 ^ (f + 1) := h
        _ = 10 ^ f * 10 := by ring
      rw [ih (n / 10) hdiv, decCharVal_decDigitChar _ (Nat.mod_lt n (by norm_num))]
      omega

theorem decValue_natRepr (n : Nat) : decValue (natRepr n).data = n := by
  have h : n < 10 ^ (n + 1) := by
    calc n < 2 ^ n := Nat.lt_two_pow n
    _ ≤ 10 ^ n := Nat.pow_le_pow_left (by norm_num) n
    _ ≤ 10 ^ (n + 1) := Nat.pow_le_pow_right (by norm_num) (Nat.le_succ n)
  simpa [natRepr] using decValue_decRenderFuel (n + 1) n h

theorem natRepr_injective : Function.Injective natRepr := by
  intro a b h
  have : decValue (natRepr a).data = decValue (natRepr b).data := by rw [h]
  simpa [decValue_natRepr] using this

theorem decRenderFuel_ne_nil (fuel n : Nat) (h : 0 < fuel) :
    decRenderFuel fuel n ≠ [] := by
  cases fuel with
  | zero => omega
  | succ f =>
    by_cases hn : n < 10 <;> simp [decRenderFuel, hn]

theorem natRepr_length_pos (n : Nat) : 0 < (natRepr n).length := by
  have := decRenderFuel_ne_nil (n + 1) n (Nat.succ_pos n)
  simp only [natRepr, String.length]
  cases hd : decRenderFuel (n + 1) n with
  | nil => exact absurd hd this
  | cons c cs => simp [hd]

/-! ## `format_filename_base` (src/app.py:70-79)

```python
def format_filename_base(date_str, doc_type):
    if re.match(r'^\d{4}$', date_str): return f"{date_str}_{doc_type}"
    if re.match(r'^\d{4}-\d{2}$', date_str):
        year, month = date_str.split('-')
        return f"{year}_{month}_{doc_type}"
    if re.match(r'^\d{2}/\d{2}/\d{4}$', date_str):
        day, month, year = date_str.split('/')
        return f"{year}_{month}_{day}_{doc_type}"
    clean_date = re.sub(r'[^\w\.-]', '_', date_str)
    return f"{clean_date}_{doc_type}"
```
-/

/-- Matcher for an anchored Python pattern `^p₁p₂…pₙ$` where each `pᵢ` is a
single-character class: the whole input must match, except that CPython's `$`
also accepts a single trailing newline. -/
def pyAnchoredMatch : List (Char → Bool) → List Char → Bool
  | [], [] => true
  | [], [c] => c = '\n'
  | [], _ :: _ :: _ => false
  | _ :: _, [] => false
  | p :: ps, c :: cs => p c && pyAnchoredMatch ps cs

/-- The pattern `^\d{4}$`. -/
def patYear : List (Char → Bool) :=
  [Char.isDigit, Char.isDigit, Char.isDigit, Char.isDigit]

/-- The pattern `^\d{4}-\d{2}$`. -/
def patYearMonth : List (Char → Bool) :=
  [Char.isDigit, Char.isDigit, Char.isDigit, Char.isDigit, (· = '-'),
   Char.isDigit, Char.isDigit]

/-- The pattern `^\d{2}/\d{2}/\d{4}$`. -/
def patDayMonthYear : List (Char → Bool) :=
  [Char.isDigit, Char.isDigit, (· = '/'), Char.isDigit, Char.isDigit, (· = '/'),
   Char.isDigit, Char.isDigit, Char.isDigit, Char.isDigit]

/-- `re.sub(r'[^\w\.-]', '_', s)`: replace every character that is not a word
character, a dot or a hyphen by an underscore. -/
def sanitizeDate (s : String) : String :=
  ⟨s.data.map (fun c => if isWordChar c || c = '.' || c = '-' then c else '_')⟩

/-- Embedding of `format_filename_base` (src/app.py:70).  The `| _ =>`
fallbacks of the two `match`es are unreachable: the preceding regex guard
guarantees the split has exactly the unpacked arity (in Python a mismatch
would raise `ValueError`, but the guard rules it out). -/
def format_filename_base (date_str doc_type : String) : String :=
  if pyAnchoredMatch patYear date_str.data then
    date_str ++ "_" ++ doc_type
  else if pyAnchoredMatch patYearMonth date_str.data then
    match pySplit '-' date_str with
    | [year, month] => year ++ "_" ++ month ++ "_" ++ doc_type
    | _ => date_str ++ "_" ++ doc_type
  else if pyAnchoredMatch patDayMonthYear date_str.data then
    match pySplit '/' date_str with
    | [day, month, year] => year ++ "_" ++ month ++ "_" ++ day ++ "_" ++ doc_type
    | _ => date_str ++ "_" ++ doc_type
  else
    sanitizeDate date_str ++ "_" ++ doc_type

/-! ## `os.path.splitext` and URL helpers -/

/-- Index of the last occurrence of `c` in `cs` (CPython `str.rfind`
restricted to found results). -/
def lastIdxOf (c : Char) : List Char → Option Nat
  | [] => none
  | x :: xs =>
    match lastIdxOf c xs with
    | some i => some (i + 1)
    | none => if x = c then some 0 else none

theorem lastIdxOf_lt_length {c : Char} :
    ∀ {cs : List Char} {i : Nat}, lastIdxOf c cs = some i → i < cs.length := by
  intro cs
  induction cs with
  | nil => intro i h; simp [lastIdxOf] at h
  | cons x xs ih =>
    intro i h
    simp only [lastIdxOf] at h
    cases hx : lastIdxOf c xs with
    | some j =>
      rw [hx] at h
      cases h
      have := ih hx
      simp only [List.length_cons]
      omega
    | none =>
      rw [hx] at h
      by_cases he : x = c
      · simp [he] at h
        cases h
        simp
      · simp [he] at h

theorem lastIdxOf_get {c : Char} :
    ∀ {cs : List Char} {i : Nat} (h : lastIdxOf c cs = some i),
      cs.get ⟨i, lastIdxOf_lt_length h⟩ = c := by
  intro cs
  induction cs with
  | nil => intro i h; simp [lastIdxOf] at h
  | cons x xs ih =>
    intro i h
    simp only [lastIdxOf] at h
    cases hx : lastIdxOf c xs with
    | some j =>
      rw [hx] at h
      cases h
      simpa using ih hx
    | none =>
      rw [hx] at h
      by_cases he : x = c
      · simp only [he, if_pos rfl] at h
        cases h
        simpa using he
      · simp [he] at h

/-- The guard of CPython `posixpath.splitext`: the last dot (at `dotIdx`) lies
past the last path separator (`sepBound` = separator index + 1, or 0) and the
basename has at least one non-dot character before the dot. -/
def splitextGuard (p : List Char) (sepBound dotIdx : Nat) : Bool :=
  decide (sepBound ≤ dotIdx) &&
    ((p.drop sepBound).take (dotIdx - sepBound)).any (· ≠ '.')

/-- CPython `posixpath.splitext` on a character list: split at the last dot,
provided it comes after the last path separator and the basename has at least
one non-dot character before it. -/
def splitextChars (p : List Char) : List Char × List Char :=
  match lastIdxOf '.' p with
  | none => (p, [])
  | some dotIdx =>
    let sepBound : Nat :=
      match lastIdxOf '/' p with
      | none => 0
      | some sepIdx => sepIdx + 1
    if splitextGuard p sepBound dotIdx then
      (p.take dotIdx, p.drop dotIdx)
    else
      (p, [])

/-- `os.path.splitext` on strings: `(root, ext)`. -/
def splitext (p : String) : String × String :=
  let pr := splitextChars p.data
  (⟨pr.1⟩, ⟨pr.2⟩)

theorem splitextChars_append (p : List Char) :
    (splitextChars p).1 ++ (splitextChars p).2 = p := by
  unfold splitextChars
  cases h : lastIdxOf '.' p with
  | none => simp
  | some dotIdx =>
    by_cases hc : splitextGuard p
        (match lastIdxOf '/' p with
          | none => 0
          | some sepIdx => sepIdx + 1) dotIdx = true <;>
      simp [hc, List.take_append_drop]

theorem splitext_append (p : String) :
    (splitext p).1 ++ (splitext p).2 = p := by
  cases p with
  | mk cs =>
    show String.mk ((splitextChars cs).1 ++ (splitextChars cs).2) = String.mk cs
    rw [splitextChars_append]

theorem splitextChars_ext_head (p : List Char) :
    (splitextChars p).2 = [] ∨ ∃ rest, (splitextChars p).2 = '.' :: rest := by
  unfold splitextChars
  cases h : lastIdxOf '.' p with
  | none => simp
  | some dotIdx =>
    by_cases hc : splitextGuard p
        (match lastIdxOf '/' p with
          | none => 0
          | some sepIdx => sepIdx + 1) dotIdx = true
    · right
      have hlt : dotIdx < p.length := lastIdxOf_lt_length h
      have hget : p.get ⟨dotIdx, hlt⟩ = '.' := lastIdxOf_get h
      refine ⟨p.drop (dotIdx + 1), ?_⟩
      simp only [hc, if_true]
      rw [List.drop_eq_getElem_cons hlt]
      simp only [List.get_eq_getElem] at hget
      simp [hget]
    · left
      simp [hc]

/-- The extension produced by `splitext` is empty or begins with a dot. -/
theorem splitext_ext_head (p : String) :
    (splitext p).2 = "" ∨ ∃ rest, (splitext p).2 = ⟨'.' :: rest⟩ := by
  rcases splitextChars_ext_head p.data with h | ⟨rest, h⟩
  · left
    show String.mk (splitextChars p.data).2 = ""
    rw [h]
  · right
    exact ⟨rest, congrArg String.mk h⟩

/-- Hexadecimal digit test (Python `string.hexdigits` membership as used by
`urllib.parse.unquote`). -/
def isHexDigit (c : Char) : Bool :=
  c.isDigit || ('a' ≤ c && c ≤ 'f') || ('A' ≤ c && c ≤ 'F')

/-- Value of a hexadecimal digit. -/
def hexVal (c : Char) : Nat :=
  if c.isDigit then c.toNat - 48
  else if 'a' ≤ c && c ≤ 'f' then c.toNat - 87
  else c.toNat - 55

/-- `urllib.parse.unquote`: percent-decoding.  Valid `%XX` escapes become the
character with code `XX`; invalid escapes are passed through unchanged.
(CPython additionally UTF-8-decodes consecutive escaped bytes; that matters
only for multi-byte escapes, which the embedding renders byte-by-byte.) -/
def unquoteChars : List Char → List Char
  | [] => []
  | '%' :: a :: b :: rest =>
    if isHexDigit a && isHexDigit b then
      Char.ofNat (16 * hexVal a + hexVal b) :: unquoteChars rest
    else
      '%' :: unquoteChars (a :: b :: rest)
  | c :: cs => c :: unquoteChars cs

/-- `urllib.parse.unquote` on strings. -/
def unquote (s : String) : String :=
  ⟨unquoteChars s.data⟩

/-- Python `str.strip('"')`: remove all leading and trailing double quotes. -/
def stripQuotes (s : String) : String :=
  ⟨((s.data.dropWhile (· = '"')).reverse.dropWhile (· = '"')).reverse⟩

/-- Characters permitted in a URL scheme (`urllib.parse.scheme_chars`). -/
def isSchemeChar (c : Char) : Bool :=
  c.isAlphanum || c = '+' || c = '-' || c = '.'

/-- The `path` component of `urllib.parse.urlparse(url)`: strip scheme and
netloc, cut at the first `'#'` or `'?'`, then split parameters (the part of
the last segment after `';'`).  Mirrors CPython's `urlsplit`/`_splitparams`,
including the removal of ASCII tab/newline and surrounding control
characters and spaces done by modern CPython. -/
def urlPath (url : String) : String :=
  let cs0 := url.data.filter (fun c => !(c = '\t' || c = '\x0d' || c = '\n'))
  let cs1 := ((cs0.dropWhile (·.toNat ≤ 32)).reverse.dropWhile (·.toNat ≤ 32)).reverse
  let pre := cs1.takeWhile (· ≠ ':')
  let afterScheme :=
    if pre.length < cs1.length && !pre.isEmpty &&
        (pre.headD ' ').isAlpha && pre.all isSchemeChar then
      cs1.drop (pre.length + 1)
    else
      cs1
  let afterNetloc :=
    match afterScheme with
    | '/' :: '/' :: rest => rest.dropWhile (fun c => !(c = '/' || c = '?' || c = '#'))
    | _ => afterScheme
  let beforeFrag := afterNetloc.takeWhile (· ≠ '#')
  let beforeQuery := beforeFrag.takeWhile (· ≠ '?')
  let segStart :=
    match lastIdxOf '/' beforeQuery with
    | none => 0
    | some i => i
  let path :=
    beforeQuery.take segStart ++ (beforeQuery.drop segStart).takeWhile (· ≠ ';')
  ⟨path⟩

/-! ## `get_extension_from_response` (src/app.py:39-68)

The Content-Disposition header is scanned with
`re.findall(r'filename\*?=(?:UTF-\d{1,2}\'\'|")?([^";\s]+)', cd, re.IGNORECASE)`.
The scanner below implements exactly that pattern: at each position, the
literal `filename` (case-insensitively), an optional `*`, `=`, an optional
prefix (`UTF-` plus one or two digits plus two single quotes, or one double
quote), and then a non-empty maximal run of characters that are not `'"'`,
`';'` or whitespace, which is the captured group.  Like `re.findall`, matches
are non-overlapping and scanned left to right. -/

/-- Strip a literal from the front, case-insensitively (ASCII). -/
def stripLitCI : List Char → List Char → Option (List Char)
  | [], cs => some cs
  | _ :: _, [] => none
  | l :: ls, c :: cs => if c.toLower = l.toLower then stripLitCI ls cs else none

/-- After `UTF-`: one or two digits (greedy) followed by two single quotes. -/
def tryQuoteUTF : List Char → Option (List Char)
  | d1 :: rest1 =>
    if d1.isDigit then
      match rest1 with
      | d2 :: rest2 =>
        if d2.isDigit then
          match rest2 with
          | '\'' :: '\'' :: r => some r
          | _ => none
        else
          match rest1 with
          | '\'' :: '\'' :: r => some r
          | _ => none
      | [] => none
    else
      none
  | [] => none

/-- A character the capture group `[^";\s]+` accepts. -/
def isCapChar (c : Char) : Bool :=
  !(c = '"' || c = ';' || isPySpace c)

/-- The capture `[^";\s]+`: a non-empty maximal run of acceptable characters,
returned together with the rest of the input. -/
def capRun (cs : List Char) : Option (List Char × List Char) :=
  let run := cs.takeWhile isCapChar
  if run.isEmpty then none else some (run, cs.drop run.length)

/-- The quote and empty alternatives of the optional group
`(?:UTF-\d{1,2}\'\'|")?` followed by the capture. -/
def matchAfterEqNoUTF (cs : List Char) : Option (List Char × List Char) :=
  match cs with
  | '"' :: rest =>
    match capRun rest with
    | some res => some res
    | none => capRun cs
  | _ => capRun cs

/-- Match `(?:UTF-\d{1,2}\'\'|")?([^";\s]+)` at the current position, with
regex backtracking across the three alternatives of the optional group. -/
def matchAfterEq (cs : List Char) : Option (List Char × List Char) :=
  match (stripLitCI "UTF-".data cs).bind tryQuoteUTF with
  | some afterUTF =>
    match capRun afterUTF with
    | some res => some res
    | none => matchAfterEqNoUTF cs
  | none => matchAfterEqNoUTF cs

/-- Try to match the whole pattern at the current position; on success return
the captured group and the rest of the input after the match. -/
def tryMatchFilename (cs : List Char) : Option (List Char × List Char) :=
  match stripLitCI "filename".data cs with
  | none => none
  | some r1 =>
    match r1 with
    | '*' :: '=' :: rest => matchAfterEq rest
    | '=' :: rest => matchAfterEq rest
    | _ => none

/-- Fuelled left-to-right non-overlapping scan (`re.findall` group-1 list).
Every successful match consumes at least nine characters and every failure
consumes one, so `fuel = length + 1` never runs out. -/
def scanCDFuel : Nat → List Char → List String
  | 0, _ => []
  | fuel + 1, cs =>
    match tryMatchFilename cs with
    | some (g, rest) => String.mk g :: scanCDFuel fuel rest
    | none =>
      match cs with
      | [] => []
      | _ :: cs' => scanCDFuel fuel cs'

/-- `re.findall(r'filename\*?=(?:UTF-\d{1,2}\'\'|")?([^";\s]+)', cd, re.IGNORECASE)`. -/
def findFilenames (cd : String) : List String :=
  scanCDFuel (cd.data.length + 1) cd.data

/-- The fixed `Content-Type` → extension table (src/app.py:51-59). -/
def mimeToExt (ct : String) : Option String :=
  if ct = "application/pdf" then some ".pdf"
  else if ct = "application/vnd.ms-powerpoint" then some ".ppt"
  else if ct = "application/vnd.openxmlformats-officedocument.presentationml.presentation" then
    some ".pptx"
  else if ct = "application/msword" then some ".doc"
  else if ct = "application/vnd.openxmlformats-officedocument.wordprocessingml.document" then
    some ".docx"
  else if ct = "application/zip" then some ".zip"
  else if ct = "application/x-zip-compressed" then some ".zip"
  else if ct = "text/csv" then some ".csv"
  else none

/-- The headers of an HTTP response, as read by the extension resolver.
A `none` header models a missing dictionary key (`headers.get` → `None`). -/
structure PyResponse where
  contentDisposition : Option String
  contentType : Option String
deriving DecidableEq

/-- Python truthiness of an optional string (`None` and `''` are falsy). -/
def pyTruthyStr : Option String → Bool
  | none => false
  | some s => !s.isEmpty

/-- The acceptance test `ext and 1 < len(ext) < 7` (src/app.py:46 and 64):
a non-empty extension whose length, dot included, is between 2 and 6. -/
def extLenOk (ext : String) : Bool :=
  !ext.isEmpty && decide (1 < ext.length) && decide (ext.length < 7)

/-- Step (a) of the resolver: extension from the `Content-Disposition`
header, `None` when it does not produce an acceptable extension. -/
def extFromContentDisposition (resp : PyResponse) : Option String :=
  match resp.contentDisposition with
  | none => none
  | some cd =>
    if cd.isEmpty then none
    else
      match (findFilenames cd).getLast? with
      | none => none
      | some fn =>
        let parsed := unquote (stripQuotes fn)
        let ext := (splitext parsed).2
        if extLenOk ext then
          some (pyLower ext)
        else
          none

/-- Step (b) of the resolver: extension from the `Content-Type` header. -/
def extFromContentType (resp : PyResponse) : Option String :=
  match resp.contentType with
  | none => none
  | some ctRaw =>
    if ctRaw.isEmpty then none
    else
      mimeToExt (pyLower (pyStrip ((pySplit ';' ctRaw).headD "")))

/-- Embedding of `get_extension_from_response` (src/app.py:39). -/
def get_extension_from_response (resp : PyResponse) (url : String)
    (doc_type_for_default : String) : String :=
  match extFromContentDisposition resp with
  | some e => e
  | none =>
    match extFromContentType resp with
    | some e => e
    | none =>
      let ext_from_url := (splitext (urlPath url)).2
      if extLenOk ext_from_url then
        pyLower ext_from_url
      else if doc_type_for_default = "PPT" then ".pptx"
      else if doc_type_for_default = "Transcript" then ".pdf"
      else ".pdf"

/-! ## `get_webpage_content` (src/app.py:82-99)

The single HTTP GET is abstracted into a `FetchOutcome` value describing what
the transport did; the embedded function performs the same classification of
that outcome into a page text or an error message as the source's
`try/except` ladder.  Exactly one GET is issued and there is no retry, so one
outcome value fully determines the call. -/

/-- What the single `requests.get` + `raise_for_status` did. -/
inductive FetchOutcome where
  | success (text : String)
  | httpError (status : Nat)
  | connectionError
  | timeoutError
  | requestException (msg : String)
deriving DecidableEq

/-- Result of `get_webpage_content`: the page text, or the
`{"error": ...}` dictionary. -/
inductive FetchResult where
  | page (text : String)
  | error (msg : String)
deriving DecidableEq

/-- The deterministic listing URL templated from the ticker. -/
def screener_url (stock_name : String) : String :=
  "https://www.screener.in/company/" ++ stock_name ++ "/consolidated/#documents"

/-- Embedding of `get_webpage_content` (src/app.py:82). -/
def get_webpage_content (stock_name : String) (outcome : FetchOutcome) : FetchResult :=
  match outcome with
  | .success text => .page text
  | .httpError status =>
    if status = 404 then
      .error ("Stock '" ++ stock_name ++ "' not found on Screener. Check ticker.")
    else
      .error ("HTTP error fetching Screener page for '" ++ stock_name ++ "'. Status: " ++
        natRepr status ++ ".")
  | .connectionError =>
    .error ("Connection error for '" ++ stock_name ++ "'. Check internet.")
  | .timeoutError =>
    .error ("Timeout fetching page for '" ++ stock_name ++ "'. Server slow.")
  | .requestException msg =>
    .error ("Error fetching data for '" ++ stock_name ++ "': " ++ msg ++ ". Try again.")

/-! ## `parse_html_content` (src/app.py:101-119)

BeautifulSoup's CSS selection is abstracted into a pre-selected page
structure: `annualReports` is the element list produced by
`soup.select('.annual-reports ul.list-links li a')` (text and `href` of each
anchor) and `concalls` is the list produced by
`soup.select('.concalls ul.list-links li')`, each item carrying the text of
its `.ink-600.font-size-15` date div (`none` when `select_one` returns
`None`) and its `a.concall-link` children.  An empty or `None` HTML input
(`if not html_content: return []`) is the `none` page. -/

/-- An anchor element: its text and its `href` attribute. -/
structure Anchor where
  text : String
  href : String
deriving DecidableEq

/-- One `.concalls ul.list-links li` item. -/
structure ConcallItem where
  dateText : Option String
  links : List Anchor
deriving DecidableEq

/-- The two structural regions of the listing page that the parser reads. -/
structure DocumentsPage where
  annualReports : List Anchor
  concalls : List ConcallItem
deriving DecidableEq

/-- A parsed document reference `{'date': ..., 'type': ..., 'url': ...}`. -/
structure LinkInfo where
  date : String
  type : String
  url : String
deriving DecidableEq

/-- Strip a literal from the front, case-sensitively. -/
def stripLitExact : List Char → List Char → Option (List Char)
  | [], cs => some cs
  | _ :: _, [] => none
  | l :: ls, c :: cs => if c = l then stripLitExact ls cs else none

/-- `re.search(r'Financial Year (\d{4})', text)`, returning group 1 of the
first (leftmost) match: the four digits following the literal
`"Financial Year "`. -/
def searchFinancialYear : List Char → Option String
  | [] => none
  | c :: cs =>
    match stripLitExact "Financial Year ".data (c :: cs) with
    | some (d1 :: d2 :: d3 :: d4 :: _) =>
      if d1.isDigit && d2.isDigit && d3.isDigit && d4.isDigit then
        some ⟨[d1, d2, d3, d4]⟩
      else
        searchFinancialYear cs
    | _ => searchFinancialYear cs

/-- Month-abbreviation table of `strptime`'s `%b` (C locale), lowercased,
with the zero-padded month number used by `strftime('%m')`. -/
def monthAbbrev (k : String) : Option String :=
  if k = "jan" then some "01"
  else if k = "feb" then some "02"
  else if k = "mar" then some "03"
  else if k = "apr" then some "04"
  else if k = "may" then some "05"
  else if k = "jun" then some "06"
  else if k = "jul" then some "07"
  else if k = "aug" then some "08"
  else if k = "sep" then some "09"
  else if k = "oct" then some "10"
  else if k = "nov" then some "11"
  else if k = "dec" then some "12"
  else none

/-- `datetime.strptime(s, '%b %Y').strftime('%Y-%m')`, as an option:
a three-letter month abbreviation (case-insensitive), at least one
whitespace character, exactly four digits, end of string.  The year must
name a valid `datetime` year (not 0000).  Mirrors CPython `_strptime`
(format whitespace matches `\s+`; `%Y` is four digits here).  `none` models
the `ValueError` path. -/
def parseMonYear (s : String) : Option String :=
  match s.data with
  | a :: b :: c :: rest =>
    match monthAbbrev ⟨[a.toLower, b.toLower, c.toLower]⟩ with
    | none => none
    | some mm =>
      let rest' := rest.dropWhile isPySpace
      if rest.length = rest'.length then none
      else
        match rest' with
        | [y1, y2, y3, y4] =>
          if y1.isDigit && y2.isDigit && y3.isDigit && y4.isDigit &&
              !(y1 = '0' && y2 = '0' && y3 = '0' && y4 = '0') then
            some (⟨[y1, y2, y3, y4]⟩ ++ "-" ++ mm)
          else
            none
        | _ => none
  | _ => none

/-- Python string `<=`: lexicographic comparison of the code-point
sequences. -/
def strLeChars : List Char → List Char → Bool
  | [], _ => true
  | _ :: _, [] => false
  | a :: as, b :: bs => if a = b then strLeChars as bs else decide (a < b)

/-- Python `a <= b` on strings. -/
def pyStrLe (a b : String) : Bool :=
  strLeChars a.data b.data

/-- The comparison key order used by
`sorted(all_links, key=lambda x: x['date'], reverse=True)`:
descending in the raw date string. -/
def dateGE (a b : LinkInfo) : Prop :=
  pyStrLe b.date a.date = true

instance : DecidableRel dateGE := fun a b =>
  (inferInstance : Decidable (pyStrLe b.date a.date = true))

/-- The references contributed by the annual-reports region. -/
def annualLinks (page : DocumentsPage) : List LinkInfo :=
  page.annualReports.filterMap (fun a =>
    (searchFinancialYear (pyStrip a.text).data).map
      (fun year => ⟨year, "Annual_Report", a.href⟩))

/-- The references contributed by one concall item. -/
def concallLinksOfItem (item : ConcallItem) : List LinkInfo :=
  match item.dateText with
  | none => []
  | some dt =>
    let date_text := pyStrip dt
    let date_str :=
      match parseMonYear date_text with
      | some s => s
      | none => date_text
    item.links.filterMap (fun a =>
      if strContains a.text "Transcript" then
        some ⟨date_str, "Transcript", a.href⟩
      else if strContains a.text "PPT" then
        some ⟨date_str, "PPT", a.href⟩
      else
        none)

/-- Embedding of `parse_html_content` (src/app.py:101).  CPython's
`sorted(..., reverse=True)` is a stable descending sort, which
`List.insertionSort` with the reflexive descending relation implements. -/
def parse_html_content (html : Option DocumentsPage) : List LinkInfo :=
  match html with
  | none => []
  | some page =>
    let all_links := annualLinks page ++ page.concalls.flatMap concallLinksOfItem
    List.insertionSort dateGE all_links

/-! ## `download_with_requests` (src/app.py:122-167)

The per-host session warm-up, referrer choreography and the BSE alternate-URL
attempt (src/app.py:127-145) are network effects with no influence on the
validation logic; they are folded into the abstract `Transport` outcome that
says what the eventual streamed GET did.  The embedded function performs the
source's post-stream validation, error classification and file cleanup
(including the `finally` block), and additionally reports whether a file
exists at the destination path when the call returns. -/

/-- Python truthiness of optional bytes (`None` and `b''` are falsy). -/
def pyTruthyBytes : Option (List Nat) → Bool
  | none => false
  | some l => !l.isEmpty

/-- ASCII whitespace bytes stripped by `bytes.strip()`. -/
def isPySpaceByte (b : Nat) : Bool :=
  b = 32 || b = 9 || b = 10 || b = 13 || b = 11 || b = 12

/-- `bytes.strip()` on a byte list. -/
def pyStripBytes (bs : List Nat) : List Nat :=
  ((bs.dropWhile isPySpaceByte).reverse.dropWhile isPySpaceByte).reverse

/-- The bytes of an ASCII string. -/
def asciiBytes (s : String) : List Nat :=
  s.data.map Char.toNat

/-- The HTML-content test of src/app.py:154 (and 235):
`content.strip().startswith(b'<!DOCTYPE html') or content.strip().startswith(b'<html')`.
Note that `bytes.startswith` compares bytes exactly; there is no lowercasing
in the source. -/
def looksLikeHtml (content : List Nat) : Bool :=
  (asciiBytes "<!DOCTYPE html").isPrefixOf (pyStripBytes content) ||
    (asciiBytes "<html").isPrefixOf (pyStripBytes content)

/-- ASCII lowercase of a byte. -/
def toLowerByte (b : Nat) : Nat :=
  if 65 ≤ b && b ≤ 90 then b + 32 else b

/-- The claim-side, case-insensitive variant: the trimmed body starts with
`<!DOCTYPE html` or `<html` up to ASCII case. -/
def looksLikeHtmlCI (content : List Nat) : Bool :=
  (asciiBytes "<!doctype html").isPrefixOf ((pyStripBytes content).map toLowerByte) ||
    (asciiBytes "<html").isPrefixOf ((pyStripBytes content).map toLowerByte)

/-- `MIN_FILE_SIZE` (src/app.py:22). -/
def MIN_FILE_SIZE : Nat := 1024

/-- What the streamed GET of the Direct strategy did: a complete body, a
`requests` exception before the destination file was opened (connection
refused, HTTP error status, ...), or a `requests` exception in the middle of
streaming (after the file was created). -/
inductive Transport where
  | ok (resp : PyResponse) (body : List Nat)
  | exnBeforeOpen (msg : String)
  | exnMidStream (resp : PyResponse) (partialBody : List Nat) (msg : String)
deriving DecidableEq

/-- The 4-tuple `(path, content, error_marker, error_detail)` returned by the
download strategies. -/
structure StratResult where
  path : Option String
  content : Option (List Nat)
  error : Option String
  detail : Option String
deriving DecidableEq

/-- Embedding of `download_with_requests` (src/app.py:122).  Returns the
strategy's 4-tuple together with whether a file exists at the destination
path after the call (the second component). -/
def download_with_requests (t : Transport) (url : String) (folder_path : String)
    (base_name_no_ext : String) (doc_type : String) : StratResult × Bool :=
  match t with
  | .exnBeforeOpen msg =>
    (⟨none, none, some "DOWNLOAD_FAILED_EXCEPTION", some msg⟩, false)
  | .exnMidStream _ _ msg =>
    (⟨none, none, some "DOWNLOAD_FAILED_EXCEPTION", some msg⟩, false)
  | .ok resp body =>
    let file_ext := get_extension_from_response resp url doc_type
    let path_written := folder_path ++ "/" ++ base_name_no_ext ++ file_ext
    if looksLikeHtml body then
      (⟨none, none, some "DOWNLOAD_FAILED_HTML_CONTENT", none⟩, false)
    else if body.length < MIN_FILE_SIZE then
      (⟨none, none, some "DOWNLOAD_FAILED_TOO_SMALL", none⟩, false)
    else
      (⟨some path_written, some body, none, none⟩, true)

/-! ## `download_file_attempt` (src/app.py:253-263)

The two strategies are network-driven; their 4-tuple results are taken as
inputs.  `download_file_attempt` first calls `download_with_requests`; only
when that did not yield a file (`path_req and content_req` falsy) does it
call `download_with_selenium`.  The function below is the source's
combination logic over the two results; that the Rendered strategy is
consulted only on Direct failure is expressed by theorems showing the result
is independent of the Rendered input whenever Direct yielded a file. -/

/-- `error_marker` strings classed as exceptions (`"EXCEPTION" in error`). -/
def isExceptionClass (err : String) : Bool :=
  strContains err "EXCEPTION"

/-- Embedding of `download_file_attempt` (src/app.py:253), as a function of
the two strategies' results. -/
def download_file_attempt (req sel : StratResult) : StratResult :=
  if pyTruthyStr req.path && pyTruthyBytes req.content then
    ⟨req.path, req.content, none, none⟩
  else if pyTruthyStr sel.path && pyTruthyBytes sel.content then
    ⟨sel.path, sel.content, none, none⟩
  else if sel.error = some "SELENIUM_DRIVER_INIT_ERROR" then
    ⟨none, none, some "SELENIUM_DRIVER_INIT_ERROR", sel.detail⟩
  else if pyTruthyStr sel.error &&
      isExceptionClass ((sel.error).getD "") then
    ⟨none, none, sel.error, sel.detail⟩
  else if pyTruthyStr req.error &&
      isExceptionClass ((req.error).getD "") then
    ⟨none, none, req.error, req.detail⟩
  else
    let final_error :=
      if pyTruthyStr sel.error then sel.error
      else if pyTruthyStr req.error then req.error
      else some "DOWNLOAD_FAILED"
    let final_detail := if pyTruthyStr sel.error then sel.detail else req.detail
    ⟨none, none, final_error, final_detail⟩

/-! ## `download_selected_documents` (src/app.py:266-292)

Per filtered reference the loop body calls `download_file_attempt`; what that
call did is abstracted as an `AttemptOutcome`: a success carrying the
basename of the written file and the content bytes, a failure carrying the
`(error_marker, error_detail)` pair, or an exception raised inside the loop
body (caught by the `except Exception` handler).  The `outcomes` list pairs
up positionally with the filtered references. -/

/-- What one document's `download_file_attempt` call did, from the loop's
point of view. -/
inductive AttemptOutcome where
  | success (filename : String) (content : List Nat)
  | failure (errorMarker : Option String) (detail : Option String)
  | raised (msg : String)
deriving DecidableEq

/-- One entry of `failed_downloads_details`. -/
structure FailureEntry where
  url : String
  type : String
  base_name : String
  reason : Option String
  reason_detail : Option String
deriving DecidableEq

/-- The candidate filename tried by the collision loop at counter `c`:
`f"{name_part}_{counter}{ext_part}"`. -/
def candName (name_part ext_part : String) (c : Nat) : String :=
  name_part ++ "_" ++ natRepr c ++ ext_part

/-- The `while filename_for_zip in file_contents_for_zip` loop
(src/app.py:280).  `fuel` bounds the number of membership tests; since
successive candidates are pairwise distinct, `fuel = |used| + 1` always
suffices and the bound is never hit. -/
def collisionLoop (used : List String) (name_part ext_part : String) :
    Nat → Nat → String → String
  | 0, _, fname => fname
  | fuel + 1, counter, fname =>
    if fname ∈ used then
      collisionLoop used name_part ext_part fuel (counter + 1)
        (candName name_part ext_part counter)
    else
      fname

/-- Collision resolution for one new archive filename against the already
used keys (src/app.py:278-280). -/
def resolveZipName (used : List String) (filename : String) : String :=
  let pr := splitext filename
  collisionLoop used pr.1 pr.2 (used.length + 1) 1 filename

/-- The loop of src/app.py:273-291 over the (filtered reference, outcome)
pairs, threading the in-progress archive mapping (an insertion-ordered
association list, as a Python dict) and the failure list. -/
def processLinks : List (LinkInfo × AttemptOutcome) →
    List (String × List Nat) → List FailureEntry →
    List (String × List Nat) × List FailureEntry
  | [], dict, fails => (dict, fails)
  | (link, outcome) :: rest, dict, fails =>
    let base_name_for_file := format_filename_base link.date link.type
    match outcome with
    | .success filename content =>
      let key := resolveZipName (dict.map (·.1)) filename
      processLinks rest (dict ++ [(key, content)]) fails
    | .failure marker detail =>
      processLinks rest dict
        (fails ++ [⟨link.url, link.type, base_name_for_file, marker, detail⟩])
    | .raised msg =>
      processLinks rest dict
        (fails ++ [⟨link.url, link.type, base_name_for_file,
          some "LOOP_PROCESSING_ERROR", some msg⟩])

/-- Embedding of `download_selected_documents` (src/app.py:266): filter the
references to the selected types, pair them with their outcomes, run the
loop.  Returns `(file_contents_for_zip, failed_downloads_details)`. -/
def download_selected_documents (links : List LinkInfo) (doc_types : List String)
    (outcomes : List AttemptOutcome) :
    List (String × List Nat) × List FailureEntry :=
  if (links.filter (fun l => doc_types.contains l.type)).length = 0 then
    ([], [])
  else
    processLinks ((links.filter (fun l => doc_types.contains l.type)).zip outcomes) [] []

/-! ## Remaining auxiliary definitions used by the claim statements -/

/-- Stated from the claim's words (C1), for comparison with
`download_file_attempt`: the failure-code precedence "a driver-initialization
error from Rendered first, then an EXCEPTION-class code from Rendered, then
an EXCEPTION-class code from Direct, then any remaining Rendered code, then
Direct's code, defaulting to DOWNLOAD_FAILED".  A "code" is present when the
error slot holds a non-empty string. -/
def failureCodePrecedenceSpec (req sel : StratResult) : Option String :=
  if sel.error = some "SELENIUM_DRIVER_INIT_ERROR" then
    some "SELENIUM_DRIVER_INIT_ERROR"
  else if pyTruthyStr sel.error && isExceptionClass ((sel.error).getD "") then
    sel.error
  else if pyTruthyStr req.error && isExceptionClass ((req.error).getD "") then
    req.error
  else if pyTruthyStr sel.error then
    sel.error
  else if pyTruthyStr req.error then
    req.error
  else
    some "DOWNLOAD_FAILED"

/-- A 1024-byte body that starts with `<HTML>`: upper-case HTML head,
followed by 1018 `'a'` bytes. -/
def bodyHtmlUpper : List Nat :=
  asciiBytes "<HTML>" ++ List.replicate 1018 97

/-- A 1023-byte non-HTML body. -/
def bodySmall : List Nat :=
  List.replicate 1023 97

/-- A 1024-byte non-HTML body. -/
def bodyViable : List Nat :=
  List.replicate 1024 97

/-- The listing page of the C8 scenario: one annual-report entry labelled
"Financial Year 2022" and one concall entry dated "Mar 2023" carrying a
Transcript link and a PPT link. -/
def examplePage : DocumentsPage :=
  ⟨[⟨"Financial Year 2022", "http://a"⟩],
   [⟨some "Mar 2023", [⟨"Transcript", "http://t"⟩, ⟨"PPT", "http://p"⟩]⟩]⟩

/-- Whether an attempt outcome is a success (yielded a file). -/
def isSuccessOutcome : AttemptOutcome → Bool
  | .success _ _ => true
  | _ => false

/-! # Supporting lemmas -/

theorem string_mk_data (s : String) : (⟨s.data⟩ : String) = s := rfl

theorem pyAnchoredMatch_length {pat : List (Char → Bool)} :
    ∀ {cs : List Char}, pyAnchoredMatch pat cs = true →
      cs.length = pat.length ∨ cs.length = pat.length + 1 := by
  induction pat with
  | nil =>
    intro cs h
    match cs with
    | [] => left; rfl
    | [c] => right; rfl
    | c :: c' :: cs' => simp [pyAnchoredMatch] at h
  | cons p ps ih =>
    intro cs h
    match cs with
    | [] => simp [pyAnchoredMatch] at h
    | c :: cs' =>
      simp only [pyAnchoredMatch, Bool.and_eq_true] at h
      rcases ih h.2 with h' | h' <;> simp [h']

theorem pyAnchoredMatch_of_forall₂ {pat : List (Char → Bool)} {cs : List Char}
    (h : List.Forall₂ (fun p c => p c = true) pat cs) :
    pyAnchoredMatch pat cs = true := by
  induction h with
  | nil => rfl
  | cons hpc _ ih => simp [pyAnchoredMatch, hpc, ih]

theorem pySplitChars_of_not_mem {sep : Char} :
    ∀ {as : List Char}, sep ∉ as → pySplitChars sep as = [as] := by
  intro as
  induction as with
  | nil => intro _; rfl
  | cons c cs ih =>
    intro h
    have hc : ¬ c = sep := fun hc => h (hc ▸ List.mem_cons_self c cs)
    have hcs : sep ∉ cs := fun hm => h (List.mem_cons_of_mem c hm)
    simp only [pySplitChars, ih hcs, if_neg hc]

theorem pySplitChars_append {sep : Char} (bs : List Char) :
    ∀ {as : List Char}, sep ∉ as →
      pySplitChars sep (as ++ sep :: bs) = as :: pySplitChars sep bs := by
  intro as
  induction as with
  | nil => intro _; simp [pySplitChars]
  | cons c cs ih =>
    intro h
    have hc : ¬ c = sep := fun hc => h (hc ▸ List.mem_cons_self c cs)
    have hcs : sep ∉ cs := fun hm => h (List.mem_cons_of_mem c hm)
    simp only [List.cons_append, pySplitChars, if_neg hc, List.append_eq]
    rw [ih hcs]

theorem digit_not_mem_of_all {cs : List Char} (sep : Char)
    (hd : ∀ c ∈ cs, c.isDigit = true) (hsep : sep.isDigit = false) : sep ∉ cs := by
  intro hm
  rw [hd sep hm] at hsep
  simp at hsep

/-! # Claims -/

/-- **C3** — `format_filename_base` is a pure, total, deterministic function
over all string inputs (it is a total Lean function of its two string
arguments), applying rules in order: a 4-digit year yields `{year}_{type}`;
`YYYY-MM` yields `{year}_{month}_{type}`; `DD/MM/YYYY` yields
`{year}_{month}_{day}_{type}` (components reordered to year first); any
string matching none of the three guards has every character outside word
characters, dot and hyphen replaced by `'_'` and yields `{sanitized}_{type}`.
In particular `format("2023","Annual_Report") = "2023_Annual_Report"`,
`format("2023-04","PPT") = "2023_04_PPT"`,
`format("05/04/2023","Transcript") = "2023_04_05_Transcript"` and
`format("Q1 Update","PPT") = "Q1_Update_PPT"`. -/
theorem C3_format_filename_base :
    (∀ y t : String, y.length = 4 → (∀ c ∈ y.data, c.isDigit = true) →
      format_filename_base y t = y ++ "_" ++ t) ∧
    (∀ y m t : String, y.length = 4 → (∀ c ∈ y.data, c.isDigit = true) →
      m.length = 2 → (∀ c ∈ m.data, c.isDigit = true) →
      format_filename_base (y ++ "-" ++ m) t = y ++ "_" ++ m ++ "_" ++ t) ∧
    (∀ d m y t : String, d.length = 2 → (∀ c ∈ d.data, c.isDigit = true) →
      m.length = 2 → (∀ c ∈ m.data, c.isDigit = true) →
      y.length = 4 → (∀ c ∈ y.data, c.isDigit = true) →
      format_filename_base (d ++ "/" ++ m ++ "/" ++ y) t =
        y ++ "_" ++ m ++ "_" ++ d ++ "_" ++ t) ∧
    (∀ s t : String, pyAnchoredMatch patYear s.data = false →
      pyAnchoredMatch patYearMonth s.data = false →
      pyAnchoredMatch patDayMonthYear s.data = false →
      format_filename_base s t = sanitizeDate s ++ "_" ++ t) ∧
    format_filename_base "2023" "Annual_Report" = "2023_Annual_Report" ∧
    format_filename_base "2023-04" "PPT" = "2023_04_PPT" ∧
    format_filename_base "05/04/2023" "Transcript" = "2023_04_05_Transcript" ∧
    format_filename_base "Q1 Update" "PPT" = "Q1_Update_PPT" := by
  refine ⟨?_, ?_, ?_, ?_, by decide, by decide, by decide, by decide⟩
  · intro y t hlen hdig
    obtain ⟨cs⟩ := y
    match cs, hlen with
    | [a, b, c, d], _ =>
      have ha := hdig a (by simp)
      have hb := hdig b (by simp)
      have hc := hdig c (by simp)
      have hd := hdig d (by simp)
      have hcond : pyAnchoredMatch patYear (String.mk [a, b, c, d]).data = true := by
        simp [patYear, pyAnchoredMatch, ha, hb, hc, hd]
      simp [format_filename_base, hcond]
  · intro y m t hylen hydig hmlen hmdig
    obtain ⟨ys⟩ := y
    obtain ⟨ms⟩ := m
    match ys, hylen, ms, hmlen with
    | [a, b, c, d], _, [e, f], _ =>
      have ha := hydig a (by simp)
      have hb := hydig b (by simp)
      have hc := hydig c (by simp)
      have hd := hydig d (by simp)
      have he := hmdig e (by simp)
      have hf := hmdig f (by simp)
      have hdata : (String.mk [a, b, c, d] ++ "-" ++ String.mk [e, f]).data =
          [a, b, c, d, '-', e, f] := by
        simp [String.data_append]
      have hg1 : ¬ pyAnchoredMatch patYear [a, b, c, d, '-', e, f] = true := by
        intro hq
        rcases pyAnchoredMatch_length hq with h' | h' <;> simp [patYear] at h'
      have hg2 : pyAnchoredMatch patYearMonth [a, b, c, d, '-', e, f] = true := by
        simp [patYearMonth, pyAnchoredMatch, ha, hb, hc, hd, he, hf]
      have hnm : ('-' : Char) ∉ [a, b, c, d] :=
        digit_not_mem_of_all '-' (by simpa using hydig) (by decide)
      have hnm2 : ('-' : Char) ∉ [e, f] :=
        digit_not_mem_of_all '-' (by simpa using hmdig) (by decide)
      have hsplit : pySplit '-' (String.mk [a, b, c, d] ++ "-" ++ String.mk [e, f]) =
          [String.mk [a, b, c, d], String.mk [e, f]] := by
        unfold pySplit
        rw [hdata]
        rw [show ([a, b, c, d, '-', e, f] : List Char) =
          [a, b, c, d] ++ '-' :: [e, f] from rfl]
        rw [pySplitChars_append _ hnm, pySplitChars_of_not_mem hnm2]
        rfl
      unfold format_filename_base
      rw [hdata, if_neg hg1, if_pos hg2, hsplit]
  · intro d m y t hdlen hddig hmlen hmdig hylen hydig
    obtain ⟨ds⟩ := d
    obtain ⟨ms⟩ := m
    obtain ⟨ys⟩ := y
    match ds, hdlen, ms, hmlen, ys, hylen with
    | [a, b], _, [e, f], _, [g, h, i, j], _ =>
      have ha := hddig a (by simp)
      have hb := hddig b (by simp)
      have he := hmdig e (by simp)
      have hf := hmdig f (by simp)
      have hg := hydig g (by simp)
      have hh := hydig h (by simp)
      have hi := hydig i (by simp)
      have hj := hydig j (by simp)
      have hdata : (String.mk [a, b] ++ "/" ++ String.mk [e, f] ++ "/" ++
          String.mk [g, h, i, j]).data = [a, b, '/', e, f, '/', g, h, i, j] := by
        simp [String.data_append]
      have hg1 : ¬ pyAnchoredMatch patYear [a, b, '/', e, f, '/', g, h, i, j] = true := by
        intro hq
        rcases pyAnchoredMatch_length hq with h' | h' <;> simp [patYear] at h'
      have hg2 : ¬ pyAnchoredMatch patYearMonth
          [a, b, '/', e, f, '/', g, h, i, j] = true := by
        intro hq
        rcases pyAnchoredMatch_length hq with h' | h' <;> simp [patYearMonth] at h'
      have hg3 : pyAnchoredMatch patDayMonthYear
          [a, b, '/', e, f, '/', g, h, i, j] = true := by
        simp [patDayMonthYear, pyAnchoredMatch, ha, hb, he, hf, hg, hh, hi, hj]
      have hna : ('/' : Char) ∉ [a, b] :=
        digit_not_mem_of_all '/' (by simpa using hddig) (by decide)
      have hne : ('/' : Char) ∉ [e, f] :=
        digit_not_mem_of_all '/' (by simpa using hmdig) (by decide)
      have hng : ('/' : Char) ∉ [g, h, i, j] :=
        digit_not_mem_of_all '/' (by simpa using hydig) (by decide)
      have hsplit : pySplit '/' (String.mk [a, b] ++ "/" ++ String.mk [e, f] ++ "/" ++
          String.mk [g, h, i, j]) =
          [String.mk [a, b], String.mk [e, f], String.mk [g, h, i, j]] := by
        unfold pySplit
        rw [hdata]
        rw [show ([a, b, '/', e, f, '/', g, h, i, j] : List Char) =
          [a, b] ++ '/' :: ([e, f] ++ '/' :: [g, h, i, j]) from rfl]
        rw [pySplitChars_append _ hna, pySplitChars_append _ hne,
          pySplitChars_of_not_mem hng]
        rfl
      unfold format_filename_base
      rw [hdata, if_neg hg1, if_neg hg2, if_pos hg3, hsplit]
  · intro s t h1 h2 h3
    simp [format_filename_base, h1, h2, h3]

/-- Witness for C3: the hypothesis-bearing rules applied at concrete inputs. -/
theorem C3_format_filename_base_witness :
    format_filename_base "2023" "X" = "2023" ++ "_" ++ "X" ∧
    format_filename_base "2023-04" "Y" = "2023" ++ "_" ++ "04" ++ "_" ++ "Y" ∧
    format_filename_base "05/04/2023" "Z" =
      "2023" ++ "_" ++ "04" ++ "_" ++ "05" ++ "_" ++ "Z" ∧
    format_filename_base "Q1 Update" "PPT" = sanitizeDate "Q1 Update" ++ "_" ++ "PPT" :=
  ⟨C3_format_filename_base.1 "2023" "X" (by decide) (by decide),
   C3_format_filename_base.2.1 "2023" "04" "Y" (by decide) (by decide) (by decide)
     (by decide),
   C3_format_filename_base.2.2.1 "05" "04" "2023" "Z" (by decide) (by decide)
     (by decide) (by decide) (by decide) (by decide),
   C3_format_filename_base.2.2.2.1 "Q1 Update" "PPT" (by decide) (by decide)
     (by decide)⟩

theorem pyLower_dot_head (rest : List Char) :
    (pyLower ⟨'.' :: rest⟩).data.head? = some '.' := by
  simp [pyLower]

theorem extLenOk_ne_empty {ext : String} (h : extLenOk ext = true) :
    ¬ ext = "" := by
  intro he
  subst he
  simp [extLenOk] at h

theorem mimeToExt_dot {s e : String} (h : mimeToExt s = some e) :
    e.data.head? = some '.' := by
  unfold mimeToExt at h
  split_ifs at h <;> simp only [Option.some.injEq] at h <;> subst h <;> decide

theorem extFromContentDisposition_dot {resp : PyResponse} {e : String}
    (h : extFromContentDisposition resp = some e) : e.data.head? = some '.' := by
  unfold extFromContentDisposition at h
  cases hcd : resp.contentDisposition with
  | none => rw [hcd] at h; exact absurd h (by simp)
  | some cd =>
    rw [hcd] at h
    by_cases hemp : cd.isEmpty = true
    · simp [hemp] at h
    · simp only [hemp, Bool.false_eq_true, if_false, if_neg] at h
      generalize hlast : (findFilenames cd).getLast? = olast at h
      cases olast with
      | none => simp at h
      | some fn =>
        by_cases hguard : extLenOk (splitext (unquote (stripQuotes fn))).2 = true
        · simp only [hguard, if_true, Option.some.injEq] at h
          rcases splitext_ext_head (unquote (stripQuotes fn)) with hx | ⟨rest, hx⟩
          · exact absurd hx (extLenOk_ne_empty hguard)
          · rw [← h, hx]
            exact pyLower_dot_head rest
        · simp only [hguard, Bool.false_eq_true, if_false, if_neg] at h
          exact absurd h (by simp)

theorem extFromContentType_dot {resp : PyResponse} {e : String}
    (h : extFromContentType resp = some e) : e.data.head? = some '.' := by
  unfold extFromContentType at h
  cases hct : resp.contentType with
  | none => rw [hct] at h; exact absurd h (by simp)
  | some ct =>
    rw [hct] at h
    by_cases hemp : ct.isEmpty = true
    · simp [hemp] at h
    · simp only [hemp, Bool.false_eq_true, if_false, if_neg] at h
      exact mimeToExt_dot h

/-- **C4** — `get_extension_from_response` never fails (every result is a
non-empty dot-extension) and applies the precedence: (a) an acceptable
extension parsed from the `Content-Disposition` filename wins over
everything, so `attachment; filename="report.docx"` resolves to `.docx`
regardless of the `Content-Type` header, the URL and the hint; (b) otherwise
a known `Content-Type` is mapped by the fixed table to one of `.pdf`, `.ppt`,
`.pptx`, `.doc`, `.docx`, `.zip`, `.csv`; (c) otherwise an acceptable
extension from the URL's path; (d) otherwise the `docTypeHint` default:
`PPT` → `.pptx`, `Transcript` → `.pdf`, anything else → `.pdf`. -/
theorem C4_get_extension_from_response :
    (∀ resp url hint, (get_extension_from_response resp url hint).data.head? = some '.') ∧
    (∀ ct url hint,
      get_extension_from_response ⟨some "attachment; filename=\"report.docx\"", ct⟩
        url hint = ".docx") ∧
    (∀ url hint,
      get_extension_from_response ⟨none, some "application/pdf"⟩ url hint = ".pdf" ∧
      get_extension_from_response ⟨none, some "application/vnd.ms-powerpoint"⟩
        url hint = ".ppt" ∧
      get_extension_from_response
        ⟨none, some "application/vnd.openxmlformats-officedocument.presentationml.presentation"⟩
        url hint = ".pptx" ∧
      get_extension_from_response ⟨none, some "application/msword"⟩ url hint = ".doc" ∧
      get_extension_from_response
        ⟨none, some "application/vnd.openxmlformats-officedocument.wordprocessingml.document"⟩
        url hint = ".docx" ∧
      get_extension_from_response ⟨none, some "application/zip"⟩ url hint = ".zip" ∧
      get_extension_from_response ⟨none, some "application/x-zip-compressed"⟩
        url hint = ".zip" ∧
      get_extension_from_response ⟨none, some "text/csv"⟩ url hint = ".csv" ∧
      get_extension_from_response ⟨none, some "Application/PDF; charset=UTF-8"⟩
        url hint = ".pdf") ∧
    (∀ hint,
      get_extension_from_response ⟨none, none⟩ "https://x.com/a/b.xlsx?q=1" hint =
        ".xlsx") ∧
    get_extension_from_response ⟨none, none⟩ "https://example.com/doc" "PPT" = ".pptx" ∧
    get_extension_from_response ⟨none, none⟩ "https://example.com/doc" "Transcript" =
      ".pdf" ∧
    (∀ hint, ¬ hint = "PPT" →
      get_extension_from_response ⟨none, none⟩ "https://example.com/doc" hint = ".pdf") := by
  refine ⟨?_, fun ct url hint => rfl,
    fun url hint => ⟨rfl, rfl, rfl, rfl, rfl, rfl, rfl, rfl, rfl⟩,
    fun hint => rfl, rfl, rfl, ?_⟩
  · intro resp url hint
    unfold get_extension_from_response
    generalize hcd : extFromContentDisposition resp = ocd
    cases ocd with
    | some e => exact extFromContentDisposition_dot hcd
    | none =>
      generalize hct : extFromContentType resp = oct
      cases oct with
      | some e => exact extFromContentType_dot hct
      | none =>
        by_cases hguard : extLenOk (splitext (urlPath url)).2 = true
        · simp only [hguard, if_true]
          rcases splitext_ext_head (urlPath url) with hx | ⟨rest, hx⟩
          · exact absurd hx (extLenOk_ne_empty hguard)
          · rw [hx]
            exact pyLower_dot_head rest
        · simp only [hguard, Bool.false_eq_true, if_false, if_neg]
          split_ifs <;> decide
  · intro hint hne
    have h1 : get_extension_from_response ⟨none, none⟩ "https://example.com/doc" hint =
        if hint = "PPT" then ".pptx" else if hint = "Transcript" then ".pdf"
        else ".pdf" := rfl
    rw [h1, if_neg hne]
    by_cases h2 : hint = "Transcript" <;> simp [h2]

/-- Witness for C4: the hypothesis-bearing conjuncts at concrete inputs. -/
theorem C4_get_extension_from_response_witness :
    (get_extension_from_response ⟨some "x", some "y"⟩ "http://z" "PPT").data.head? =
      some '.' ∧
    get_extension_from_response ⟨none, none⟩ "https://example.com/doc" "Other" = ".pdf" :=
  ⟨C4_get_extension_from_response.1 ⟨some "x", some "y"⟩ "http://z" "PPT",
   C4_get_extension_from_response.2.2.2.2.2.2 "Other" (by decide)⟩

/-- **C9** — `get_webpage_content` issues a single GET (one `FetchOutcome`
value fully determines the call; there is no retry in the source) and maps
each transport outcome to exactly one error category: HTTP 404 to the
"not found" error, any other HTTP error status to the "HTTP error" message
carrying the status code, connection failure to the "connection error"
message, timeout to the "timeout" message, any other transport exception to
the generic fetch-error message; on HTTP success it returns the page text. -/
theorem C9_get_webpage_content :
    (∀ stock text, get_webpage_content stock (.success text) = .page text) ∧
    (∀ stock, get_webpage_content stock (.httpError 404) =
      .error ("Stock '" ++ stock ++ "' not found on Screener. Check ticker.")) ∧
    (∀ stock status, ¬ status = 404 →
      get_webpage_content stock (.httpError status) =
        .error ("HTTP error fetching Screener page for '" ++ stock ++
          "'. Status: " ++ natRepr status ++ ".")) ∧
    (∀ stock, get_webpage_content stock .connectionError =
      .error ("Connection error for '" ++ stock ++ "'. Check internet.")) ∧
    (∀ stock, get_webpage_content stock .timeoutError =
      .error ("Timeout fetching page for '" ++ stock ++ "'. Server slow.")) ∧
    (∀ stock msg, get_webpage_content stock (.requestException msg) =
      .error ("Error fetching data for '" ++ stock ++ "': " ++ msg ++ ". Try again.")) := by
  refine ⟨fun _ _ => rfl, fun _ => rfl, ?_, fun _ => rfl, fun _ => rfl, fun _ _ => rfl⟩
  intro stock status hne
  show (if status = 404 then _ else _) = _
  rw [if_neg hne]

/-- Witness for C9: the non-404 HTTP-error conjunct at a concrete status. -/
theorem C9_get_webpage_content_witness :
    get_webpage_content "TCS" (.httpError 503) =
      .error ("HTTP error fetching Screener page for '" ++ "TCS" ++
        "'. Status: " ++ natRepr 503 ++ ".") :=
  C9_get_webpage_content.2.2.1 "TCS" 503 (by decide)

/-- **C1** — the Direct strategy result decides the attempt first: whenever
Direct yielded a file, the attempt returns exactly that success and is
independent of the Rendered result (the source only calls
`download_with_selenium` when Direct did not yield a file).  When neither
strategy yielded a file, the recorded failure code follows the precedence
stated by the claim and captured verbatim in `failureCodePrecedenceSpec`:
driver-initialization error from Rendered, then an EXCEPTION-class code from
Rendered, then an EXCEPTION-class code from Direct, then any remaining
Rendered code, then Direct's code, defaulting to `DOWNLOAD_FAILED`. -/
theorem C1_download_file_attempt :
    (∀ req sel sel' : StratResult,
      (pyTruthyStr req.path && pyTruthyBytes req.content) = true →
      download_file_attempt req sel = ⟨req.path, req.content, none, none⟩ ∧
      download_file_attempt req sel = download_file_attempt req sel') ∧
    (∀ req sel : StratResult,
      ¬ (pyTruthyStr req.path && pyTruthyBytes req.content) = true →
      ¬ (pyTruthyStr sel.path && pyTruthyBytes sel.content) = true →
      (download_file_attempt req sel).path = none ∧
      (download_file_attempt req sel).content = none ∧
      (download_file_attempt req sel).error = failureCodePrecedenceSpec req sel) := by
  constructor
  · intro req sel sel' h
    unfold download_file_attempt
    rw [if_pos h, if_pos h]
    exact ⟨rfl, rfl⟩
  · intro req sel h1 h2
    unfold download_file_attempt failureCodePrecedenceSpec
    rw [if_neg h1, if_neg h2]
    split_ifs <;> exact ⟨rfl, rfl, rfl⟩

/-- Witness for C1: a Direct success short-circuits; and with a Direct
EXCEPTION-class code against a plain Rendered `DOWNLOAD_FAILED`, the
precedence picks the Direct exception code. -/
theorem C1_download_file_attempt_witness :
    download_file_attempt ⟨some "dl/a.pdf", some [0], none, none⟩
      ⟨none, none, some "DOWNLOAD_FAILED", none⟩ =
      ⟨some "dl/a.pdf", some [0], none, none⟩ ∧
    (download_file_attempt ⟨none, none, some "DOWNLOAD_FAILED_EXCEPTION", some "boom"⟩
      ⟨none, none, some "DOWNLOAD_FAILED", none⟩).error =
      failureCodePrecedenceSpec ⟨none, none, some "DOWNLOAD_FAILED_EXCEPTION", some "boom"⟩
        ⟨none, none, some "DOWNLOAD_FAILED", none⟩ :=
  ⟨(C1_download_file_attempt.1 ⟨some "dl/a.pdf", some [0], none, none⟩
      ⟨none, none, some "DOWNLOAD_FAILED", none⟩ ⟨none, none, none, none⟩ (by decide)).1,
   (C1_download_file_attempt.2 ⟨none, none, some "DOWNLOAD_FAILED_EXCEPTION", some "boom"⟩
      ⟨none, none, some "DOWNLOAD_FAILED", none⟩ (by decide) (by decide)).2.2⟩

/-- **C2 (amended)** — in the Direct strategy, validation of a completely
streamed body is applied in order: if the trimmed body starts exactly
(byte-for-byte, hence case-sensitively) with `<!DOCTYPE html` or `<html`,
the outcome is the `HTML_CONTENT` failure regardless of size; otherwise a
total length strictly below 1024 bytes gives the `TOO_SMALL` failure;
otherwise success.  In particular a 1023-byte non-HTML body is rejected as
`TOO_SMALL` and a 1024-byte non-HTML body is accepted.  (The original claim
said the HTML test is case-insensitive; `C2_counterexample` refutes that.) -/
theorem C2_direct_validation :
    (∀ resp url f b dt (body : List Nat), looksLikeHtml body = true →
      (download_with_requests (.ok resp body) url f b dt).1.error =
        some "DOWNLOAD_FAILED_HTML_CONTENT") ∧
    (∀ resp url f b dt (body : List Nat), looksLikeHtml body = false →
      body.length < 1024 →
      (download_with_requests (.ok resp body) url f b dt).1.error =
        some "DOWNLOAD_FAILED_TOO_SMALL") ∧
    (∀ resp url f b dt (body : List Nat), looksLikeHtml body = false →
      1024 ≤ body.length →
      (download_with_requests (.ok resp body) url f b dt).1 =
        ⟨some (f ++ "/" ++ b ++ get_extension_from_response resp url dt),
          some body, none, none⟩) ∧
    (download_with_requests (.ok ⟨none, none⟩ bodySmall) "u" "d" "n" "PPT").1.error =
      some "DOWNLOAD_FAILED_TOO_SMALL" ∧
    (download_with_requests (.ok ⟨none, none⟩ bodyViable) "u" "d" "n" "PPT").1.error =
      none := by
  refine ⟨?_, ?_, ?_, by decide, by decide⟩
  · intro resp url f b dt body h
    simp [download_with_requests, h]
  · intro resp url f b dt body h1 h2
    simp [download_with_requests, h1, MIN_FILE_SIZE, h2]
  · intro resp url f b dt body h1 h2
    simp [download_with_requests, h1, MIN_FILE_SIZE, Nat.not_lt.mpr h2]

/-- Witness for C2: the three validation rules applied at concrete bodies. -/
theorem C2_direct_validation_witness :
    (download_with_requests (.ok ⟨none, none⟩ (asciiBytes "<html><p>x</p>"))
      "u" "d" "n" "PPT").1.error = some "DOWNLOAD_FAILED_HTML_CONTENT" ∧
    (download_with_requests (.ok ⟨none, none⟩ (asciiBytes "tiny")) "u" "d" "n"
      "PPT").1.error = some "DOWNLOAD_FAILED_TOO_SMALL" ∧
    (download_with_requests (.ok ⟨none, none⟩ bodyViable) "u" "d" "n" "Transcript").1 =
      ⟨some ("d" ++ "/" ++ "n" ++
        get_extension_from_response ⟨none, none⟩ "u" "Transcript"),
        some bodyViable, none, none⟩ :=
  ⟨C2_direct_validation.1 ⟨none, none⟩ "u" "d" "n" "PPT" _ (by decide),
   C2_direct_validation.2.1 ⟨none, none⟩ "u" "d" "n" "PPT" _ (by decide) (by decide),
   C2_direct_validation.2.2.1 ⟨none, none⟩ "u" "d" "n" "Transcript" bodyViable
     (by decide) (by decide)⟩

/-- Counterexample to C2 as stated: a 1024-byte body whose trimmed head is
`<HTML>` begins with `<html` case-insensitively, yet the Direct strategy
accepts it as a success (`error = none`) instead of classifying it
`HTML_CONTENT`, because the source's `bytes.startswith` test at
src/app.py:154 is case-sensitive. -/
theorem C2_counterexample :
    looksLikeHtmlCI bodyHtmlUpper = true ∧
    (download_with_requests (.ok ⟨none, none⟩ bodyHtmlUpper) "u" "d" "n"
      "PPT").1.error = none := by
  constructor
  · decide
  · decide

/-- **C5 (amended)** — whenever the Direct strategy returns a failure outcome
(`HTML_CONTENT`, `TOO_SMALL` or `EXCEPTION`, i.e. any non-`none` error), no
file exists at the destination path after the call: every failing path of
the source deletes the partially written file (directly or in the `finally`
block).  In particular, a body whose trimmed head is exactly `<html` or
`<!DOCTYPE html` is classified `HTML_CONTENT` and the streamed file does not
exist afterwards.  (The original claim said the HTML test is
case-insensitive; `C5_counterexample` refutes that.) -/
theorem C5_direct_cleanup :
    (∀ t url f b dt, ¬ (download_with_requests t url f b dt).1.error = none →
      (download_with_requests t url f b dt).2 = false) ∧
    (∀ resp url f b dt (body : List Nat), looksLikeHtml body = true →
      (download_with_requests (.ok resp body) url f b dt).1.error =
        some "DOWNLOAD_FAILED_HTML_CONTENT" ∧
      (download_with_requests (.ok resp body) url f b dt).2 = false) := by
  constructor
  · intro t url f b dt h
    cases t with
    | exnBeforeOpen msg => rfl
    | exnMidStream resp partialBody msg => rfl
    | ok resp body =>
      by_cases hhtml : looksLikeHtml body = true
      · simp [download_with_requests, hhtml]
      · by_cases hsmall : body.length < MIN_FILE_SIZE
        · simp [download_with_requests, hhtml, hsmall]
        · exact absurd (by simp [download_with_requests, hhtml, hsmall]) h
  · intro resp url f b dt body h
    constructor
    · simp [download_with_requests, h]
    · simp [download_with_requests, h]

/-- Witness for C5: cleanup after a mid-stream transport exception and after
an exactly-lowercase HTML error page. -/
theorem C5_direct_cleanup_witness :
    (download_with_requests (.exnMidStream ⟨none, none⟩ [60] "reset") "u" "d" "n"
      "PPT").2 = false ∧
    (download_with_requests (.ok ⟨none, none⟩ (asciiBytes "<html>err"))
      "u" "d" "n" "PPT").1.error = some "DOWNLOAD_FAILED_HTML_CONTENT" ∧
    (download_with_requests (.ok ⟨none, none⟩ (asciiBytes "<html>err"))
      "u" "d" "n" "PPT").2 = false :=
  ⟨C5_direct_cleanup.1 (.exnMidStream ⟨none, none⟩ [60] "reset") "u" "d" "n" "PPT"
      (by decide),
   (C5_direct_cleanup.2 ⟨none, none⟩ "u" "d" "n" "PPT" _ (by decide)).1,
   (C5_direct_cleanup.2 ⟨none, none⟩ "u" "d" "n" "PPT" _ (by decide)).2⟩

/-- Counterexample to C5 as stated: a 1024-byte body whose trimmed head is
`<HTML>` begins with `<html` case-insensitively, yet the Direct strategy
does not classify it `HTML_CONTENT` and the streamed file still exists when
the call returns (the download is treated as a success). -/
theorem C5_counterexample :
    looksLikeHtmlCI bodyHtmlUpper = true ∧
    (download_with_requests (.ok ⟨none, none⟩ bodyHtmlUpper) "u" "d" "n"
      "PPT").2 = true := by
  constructor
  · decide
  · decide

theorem strLeChars_total : ∀ as bs : List Char,
    strLeChars as bs = true ∨ strLeChars bs as = true := by
  intro as
  induction as with
  | nil => intro bs; left; rfl
  | cons a as ih =>
    intro bs
    cases bs with
    | nil => right; rfl
    | cons b bs' =>
      by_cases hab : a = b
      · subst hab
        rcases ih bs' with h | h
        · left; simpa [strLeChars] using h
        · right; simpa [strLeChars] using h
      · rcases lt_or_gt_of_ne hab with h | h
        · left; simp [strLeChars, hab, h]
        · right
          have hba : ¬ b = a := fun he => hab he.symm
          simp [strLeChars, hba, h]

theorem strLeChars_trans : ∀ as bs cs : List Char,
    strLeChars as bs = true → strLeChars bs cs = true → strLeChars as cs = true := by
  intro as
  induction as with
  | nil => intro bs cs _ _; rfl
  | cons a as ih =>
    intro bs cs h1 h2
    cases bs with
    | nil => simp [strLeChars] at h1
    | cons b bs' =>
      cases cs with
      | nil => simp [strLeChars] at h2
      | cons c cs' =>
        by_cases hab : a = b
        · subst hab
          by_cases hbc : a = c
          · subst hbc
            simp only [strLeChars, if_pos rfl] at h1 h2 ⊢
            exact ih bs' cs' h1 h2
          · simp only [strLeChars, if_pos rfl] at h1
            simpa [strLeChars, hbc] using h2
        · by_cases hbc : b = c
          · subst hbc
            simpa [strLeChars, hab] using h1
          · simp only [strLeChars, if_neg hab, decide_eq_true_eq] at h1
            simp only [strLeChars, if_neg hbc, decide_eq_true_eq] at h2
            have hac : a < c := lt_trans h1 h2
            have hne : ¬ a = c := ne_of_lt hac
            simp [strLeChars, hne, hac]

instance : IsTotal LinkInfo dateGE :=
  ⟨fun a b => strLeChars_total b.date.data a.date.data⟩

instance : IsTrans LinkInfo dateGE :=
  ⟨fun _ _ _ h1 h2 => strLeChars_trans _ _ _ h2 h1⟩

/-- **C8** — for every input, the link parser's output is sorted descending
by the `date` field compared as a string; empty or absent input yields the
empty sequence (and the parser is a total function, never an error); and for
a page with one annual-report entry labelled "Financial Year 2022" and one
concall entry dated "Mar 2023" carrying a Transcript and a PPT link, the
parser returns exactly 3 references with the two "2023-03" entries ordered
before the "2022" entry. -/
theorem C8_parse_html_content :
    (∀ html, List.Sorted dateGE (parse_html_content html)) ∧
    parse_html_content none = [] ∧
    parse_html_content (some ⟨[], []⟩) = [] ∧
    parse_html_content (some examplePage) =
      [⟨"2023-03", "Transcript", "http://t"⟩, ⟨"2023-03", "PPT", "http://p"⟩,
       ⟨"2022", "Annual_Report", "http://a"⟩] := by
  refine ⟨?_, rfl, rfl, by decide⟩
  intro html
  cases html with
  | none => exact List.sorted_nil
  | some page => exact List.sorted_insertionSort dateGE _

theorem candName_injective (np ep : String) : Function.Injective (candName np ep) := by
  intro a b h
  have hd := congrArg String.data h
  simp only [candName, String.data_append] at hd
  have h2 := List.append_cancel_right hd
  have h3 := List.append_cancel_left h2
  have h4 : natRepr a = natRepr b := by
    rw [← string_mk_data (natRepr a), ← string_mk_data (natRepr b), h3]
  exact natRepr_injective h4

theorem candName_ne (np ep : String) (c : Nat) : candName np ep c ≠ np ++ ep := by
  intro h
  have hlen := congrArg String.length h
  simp only [candName, String.length_append] at hlen
  have := natRepr_length_pos c
  have hone : ("_" : String).length = 1 := rfl
  omega

open Classical in
theorem collisionLoop_fresh (used : List String) (np ep : String) :
    ∀ (fuel counter : Nat) (fname : String),
      (∀ c, counter ≤ c → candName np ep c ≠ fname) →
      (used.toFinset.filter
        (fun k => k = fname ∨ ∃ c, counter ≤ c ∧ k = candName np ep c)).card < fuel →
      collisionLoop used np ep fuel counter fname ∉ used := by
  intro fuel
  induction fuel with
  | zero =>
    intro counter fname _ hcard
    omega
  | succ f ih =>
    intro counter fname hinv hcard
    simp only [collisionLoop]
    by_cases hmem : fname ∈ used
    · rw [if_pos hmem]
      apply ih (counter + 1) (candName np ep counter)
      · intro c hc heq
        have := candName_injective np ep heq
        omega
      · have hfb : fname ∈ used.toFinset.filter
            (fun k => k = fname ∨ ∃ c, counter ≤ c ∧ k = candName np ep c) :=
          Finset.mem_filter.mpr ⟨List.mem_toFinset.mpr hmem, Or.inl rfl⟩
        have hsubset : used.toFinset.filter
            (fun k => k = candName np ep counter ∨
              ∃ c, counter + 1 ≤ c ∧ k = candName np ep c) ⊆
            used.toFinset.filter
              (fun k => k = fname ∨ ∃ c, counter ≤ c ∧ k = candName np ep c) := by
          intro k hk
          simp only [Finset.mem_filter] at hk ⊢
          refine ⟨hk.1, ?_⟩
          rcases hk.2 with h | ⟨c, hc, h⟩
          · exact Or.inr ⟨counter, le_refl _, h⟩
          · exact Or.inr ⟨c, by omega, h⟩
        have hfns : fname ∉ used.toFinset.filter
            (fun k => k = candName np ep counter ∨
              ∃ c, counter + 1 ≤ c ∧ k = candName np ep c) := by
          intro hf
          simp only [Finset.mem_filter] at hf
          rcases hf.2 with h | ⟨c, hc, h⟩
          · exact hinv counter (le_refl _) h.symm
          · exact hinv c (by omega) h.symm
        have hss := (Finset.ssubset_iff_of_subset hsubset).mpr ⟨fname, hfb, hfns⟩
        have := Finset.card_lt_card hss
        omega
    · rw [if_neg hmem]
      exact hmem

open Classical in
theorem resolveZipName_not_mem (used : List String) (filename : String) :
    resolveZipName used filename ∉ used := by
  unfold resolveZipName
  apply collisionLoop_fresh
  · intro c _ heq
    exact candName_ne _ _ c (heq.trans (splitext_append filename).symm)
  · calc (used.toFinset.filter _).card
        ≤ used.toFinset.card := Finset.card_filter_le _ _
      _ ≤ used.length := used.toFinset_card_le
      _ < used.length + 1 := Nat.lt_succ_self _

theorem processLinks_dict_nodup :
    ∀ (zs : List (LinkInfo × AttemptOutcome)) dict fails,
      (dict.map (·.1)).Nodup → ((processLinks zs dict fails).1.map (·.1)).Nodup := by
  intro zs
  induction zs with
  | nil =>
    intro dict fails h
    exact h
  | cons z rest ih =>
    intro dict fails h
    obtain ⟨link, outcome⟩ := z
    cases outcome with
    | success fn content =>
      simp only [processLinks]
      apply ih
      rw [List.map_append]
      refine List.Nodup.append h (List.nodup_singleton _) ?_
      intro a ha hb
      simp only [List.map_cons, List.map_nil, List.mem_singleton] at hb
      subst hb
      exact resolveZipName_not_mem (dict.map (·.1)) fn ha
    | failure marker detail =>
      simp only [processLinks]
      exact ih _ _ h
    | raised msg =>
      simp only [processLinks]
      exact ih _ _ h

theorem processLinks_length :
    ∀ (zs : List (LinkInfo × AttemptOutcome)) dict fails,
      (processLinks zs dict fails).1.length + (processLinks zs dict fails).2.length =
        dict.length + fails.length + zs.length := by
  intro zs
  induction zs with
  | nil =>
    intro dict fails
    simp [processLinks]
  | cons z rest ih =>
    intro dict fails
    obtain ⟨link, outcome⟩ := z
    cases outcome with
    | success fn content =>
      simp only [processLinks]
      rw [ih]
      simp
      omega
    | failure marker detail =>
      simp only [processLinks]
      rw [ih]
      simp
      omega
    | raised msg =>
      simp only [processLinks]
      rw [ih]
      simp
      omega

theorem processLinks_dict_length :
    ∀ (zs : List (LinkInfo × AttemptOutcome)) dict fails,
      (processLinks zs dict fails).1.length =
        dict.length + zs.countP (fun p => isSuccessOutcome p.2) := by
  intro zs
  induction zs with
  | nil =>
    intro dict fails
    simp [processLinks]
  | cons z rest ih =>
    intro dict fails
    obtain ⟨link, outcome⟩ := z
    cases outcome with
    | success fn content =>
      simp only [processLinks]
      rw [ih]
      simp [List.countP_cons, isSuccessOutcome]
      omega
    | failure marker detail =>
      simp only [processLinks]
      rw [ih]
      simp [List.countP_cons, isSuccessOutcome]
    | raised msg =>
      simp only [processLinks]
      rw [ih]
      simp [List.countP_cons, isSuccessOutcome]

theorem processLinks_fails_suffix :
    ∀ (zs : List (LinkInfo × AttemptOutcome)) dict fails,
      ∃ suffix, (processLinks zs dict fails).2 = fails ++ suffix := by
  intro zs
  induction zs with
  | nil =>
    intro dict fails
    exact ⟨[], (List.append_nil fails).symm⟩
  | cons z rest ih =>
    intro dict fails
    obtain ⟨link, outcome⟩ := z
    cases outcome with
    | success fn content =>
      simp only [processLinks]
      exact ih _ _
    | failure marker detail =>
      simp only [processLinks]
      obtain ⟨suffix, hs⟩ := ih (dict)
        (fails ++ [⟨link.url, link.type, format_filename_base link.date link.type,
          marker, detail⟩])
      exact ⟨_, by rw [hs, List.append_assoc]⟩
    | raised msg =>
      simp only [processLinks]
      obtain ⟨suffix, hs⟩ := ih (dict)
        (fails ++ [⟨link.url, link.type, format_filename_base link.date link.type,
          some "LOOP_PROCESSING_ERROR", some msg⟩])
      exact ⟨_, by rw [hs, List.append_assoc]⟩

theorem processLinks_raised_mem :
    ∀ (zs : List (LinkInfo × AttemptOutcome)) dict fails (link : LinkInfo) (msg : String),
      (link, AttemptOutcome.raised msg) ∈ zs →
      ∃ e ∈ (processLinks zs dict fails).2, e.url = link.url ∧ e.type = link.type ∧
        e.base_name = format_filename_base link.date link.type ∧
        e.reason = some "LOOP_PROCESSING_ERROR" ∧ e.reason_detail = some msg := by
  intro zs
  induction zs with
  | nil =>
    intro dict fails link msg h
    simp at h
  | cons z rest ih =>
    intro dict fails link msg h
    rcases List.mem_cons.mp h with heq | hmem
    · subst heq
      simp only [processLinks]
      obtain ⟨suffix, hs⟩ := processLinks_fails_suffix rest dict
        (fails ++ [⟨link.url, link.type, format_filename_base link.date link.type,
          some "LOOP_PROCESSING_ERROR", some msg⟩])
      refine ⟨⟨link.url, link.type, format_filename_base link.date link.type,
        some "LOOP_PROCESSING_ERROR", some msg⟩, ?_, rfl, rfl, rfl, rfl, rfl⟩
      rw [hs, List.append_assoc]
      simp
    · obtain ⟨l0, o0⟩ := z
      cases o0 with
      | success fn content =>
        simp only [processLinks]
        exact ih _ _ _ _ hmem
      | failure marker detail =>
        simp only [processLinks]
        exact ih _ _ _ _ hmem
      | raised m0 =>
        simp only [processLinks]
        exact ih _ _ _ _ hmem

theorem resolveZipName_self (fn : String) :
    resolveZipName [fn] fn = (splitext fn).1 ++ "_1" ++ (splitext fn).2 := by
  have hne : candName (splitext fn).1 (splitext fn).2 1 ∉ [fn] := by
    intro hmem
    have heq := List.mem_singleton.mp hmem
    exact candName_ne _ _ 1 (heq.trans (splitext_append fn).symm)
  have h1 : candName (splitext fn).1 (splitext fn).2 1 =
      (splitext fn).1 ++ "_1" ++ (splitext fn).2 := by
    show (splitext fn).1 ++ "_" ++ natRepr 1 ++ (splitext fn).2 = _
    rw [show natRepr 1 = "1" from rfl, String.append_assoc (splitext fn).1 "_" "1",
      show ("_" : String) ++ "1" = "_1" from by decide]
  show collisionLoop [fn] (splitext fn).1 (splitext fn).2 ([fn].length + 1) 1 fn = _
  rw [show collisionLoop [fn] (splitext fn).1 (splitext fn).2 ([fn].length + 1) 1 fn =
    if fn ∈ [fn] then
      collisionLoop [fn] (splitext fn).1 (splitext fn).2 1 2
        (candName (splitext fn).1 (splitext fn).2 1)
    else fn from rfl]
  rw [if_pos (List.mem_singleton_self fn)]
  rw [show collisionLoop [fn] (splitext fn).1 (splitext fn).2 1 2
      (candName (splitext fn).1 (splitext fn).2 1) =
    if candName (splitext fn).1 (splitext fn).2 1 ∈ [fn] then
      collisionLoop [fn] (splitext fn).1 (splitext fn).2 0 3
        (candName (splitext fn).1 (splitext fn).2 2)
    else candName (splitext fn).1 (splitext fn).2 1 from rfl]
  rw [if_neg hne]
  exact h1

theorem resolveZipName_nil (fn : String) : resolveZipName [] fn = fn := rfl

/-- **C6** — the orchestrator's archive mapping always has pairwise-distinct
filename keys, no successful download's content is lost to a collision (the
mapping holds exactly one entry per success), and when two successfully
downloaded references resolve to the same filename the second is stored
under the name with `_1` appended before the extension. -/
theorem C6_archive_collisions :
    (∀ (links : List LinkInfo) (doc_types : List String)
        (outcomes : List AttemptOutcome),
      ((download_selected_documents links doc_types outcomes).1.map (·.1)).Nodup) ∧
    (∀ (links : List LinkInfo) (doc_types : List String)
        (outcomes : List AttemptOutcome),
      (download_selected_documents links doc_types outcomes).1.length =
        ((links.filter (fun l => doc_types.contains l.type)).zip outcomes).countP
          (fun p => isSuccessOutcome p.2)) ∧
    (∀ (l1 l2 : LinkInfo) (doc_types : List String) (fn : String) (c1 c2 : List Nat),
      doc_types.contains l1.type = true → doc_types.contains l2.type = true →
      download_selected_documents [l1, l2] doc_types
        [.success fn c1, .success fn c2] =
        ([(fn, c1), ((splitext fn).1 ++ "_1" ++ (splitext fn).2, c2)], [])) := by
  refine ⟨?_, ?_, ?_⟩
  · intro links doc_types outcomes
    unfold download_selected_documents
    split
    · simp
    · exact processLinks_dict_nodup _ [] [] (by simp)
  · intro links doc_types outcomes
    unfold download_selected_documents
    split
    · next h =>
      rw [List.length_eq_zero.mp h]
      simp
    · rw [processLinks_dict_length]
      simp
  · intro l1 l2 doc_types fn c1 c2 h1 h2
    have hm1 : l1.type ∈ doc_types := by simpa using h1
    have hm2 : l2.type ∈ doc_types := by simpa using h2
    have hfilter : [l1, l2].filter (fun l => doc_types.contains l.type) = [l1, l2] := by
      simp [List.filter, hm1, hm2]
    unfold download_selected_documents
    rw [hfilter]
    rw [if_neg (by simp)]
    show processLinks [(l1, .success fn c1), (l2, .success fn c2)] [] [] = _
    simp only [processLinks, List.map_nil, resolveZipName_nil, List.nil_append,
      List.map_cons]
    rw [resolveZipName_self]
    rfl

/-- Witness for C6: two references of a selected type whose downloads both
produce `2023_PPT.pdf`; the archive holds both contents, the second under
`2023_PPT_1.pdf`. -/
theorem C6_archive_collisions_witness :
    download_selected_documents
      [⟨"2023", "PPT", "u1"⟩, ⟨"2023", "PPT", "u2"⟩] ["PPT"]
      [.success "2023_PPT.pdf" [1], .success "2023_PPT.pdf" [2]] =
      ([("2023_PPT.pdf", [1]),
        ((splitext "2023_PPT.pdf").1 ++ "_1" ++ (splitext "2023_PPT.pdf").2, [2])], []) :=
  C6_archive_collisions.2.2 ⟨"2023", "PPT", "u1"⟩ ⟨"2023", "PPT", "u2"⟩ ["PPT"]
    "2023_PPT.pdf" [1] [2] (by decide) (by decide)

/-- **C7** — an exception raised while processing one document is caught and
recorded as a failure entry with reason `LOOP_PROCESSING_ERROR` and the
exception's message as detail, and the loop then continues with the
remaining documents unchanged; every raised outcome in the batch yields such
an entry in the returned failure list.  (The orchestrator is a total Lean
function, so completion without throwing holds by construction.) -/
theorem C7_loop_exception_handling :
    (∀ (link : LinkInfo) (msg : String) rest dict fails,
      processLinks ((link, .raised msg) :: rest) dict fails =
        processLinks rest dict (fails ++ [⟨link.url, link.type,
          format_filename_base link.date link.type,
          some "LOOP_PROCESSING_ERROR", some msg⟩])) ∧
    (∀ (links : List LinkInfo) (doc_types : List String)
        (outcomes : List AttemptOutcome) (link : LinkInfo) (msg : String),
      (link, AttemptOutcome.raised msg) ∈
        (links.filter (fun l => doc_types.contains l.type)).zip outcomes →
      ∃ e ∈ (download_selected_documents links doc_types outcomes).2,
        e.url = link.url ∧ e.type = link.type ∧
        e.base_name = format_filename_base link.date link.type ∧
        e.reason = some "LOOP_PROCESSING_ERROR" ∧ e.reason_detail = some msg) := by
  constructor
  · intro link msg rest dict fails
    rfl
  · intro links doc_types outcomes link msg hmem
    unfold download_selected_documents
    rw [if_neg ?hne]
    case hne =>
      intro hz
      have h0 : (links.filter (fun l => doc_types.contains l.type)).zip outcomes = [] := by
        have := List.length_zip (links.filter (fun l => doc_types.contains l.type)) outcomes
        have hmin : ((links.filter (fun l => doc_types.contains l.type)).zip
            outcomes).length = 0 := by omega
        exact List.length_eq_zero.mp hmin
      rw [h0] at hmem
      simp at hmem
    exact processLinks_raised_mem _ [] [] link msg hmem

/-- Witness for C7: a batch with one reference whose processing raises. -/
theorem C7_loop_exception_handling_witness :
    ∃ e ∈ (download_selected_documents [⟨"2023", "PPT", "u"⟩] ["PPT"]
      [.raised "boom"]).2,
      e.url = "u" ∧ e.type = "PPT" ∧
      e.base_name = format_filename_base "2023" "PPT" ∧
      e.reason = some "LOOP_PROCESSING_ERROR" ∧ e.reason_detail = some "boom" :=
  C7_loop_exception_handling.2 [⟨"2023", "PPT", "u"⟩] ["PPT"] [.raised "boom"]
    ⟨"2023", "PPT", "u"⟩ "boom" (by decide)

/-- **C10** — for every reference list and type selection, provided the
batch supplies one attempt outcome per filtered reference, the orchestrator
accounts for each filtered reference exactly once: archive entries plus
failure entries equal the number of references of a selected type. -/
theorem C10_accounting :
    ∀ (links : List LinkInfo) (doc_types : List String)
      (outcomes : List AttemptOutcome),
      outcomes.length = (links.filter (fun l => doc_types.contains l.type)).length →
      (download_selected_documents links doc_types outcomes).1.length +
        (download_selected_documents links doc_types outcomes).2.length =
        (links.filter (fun l => doc_types.contains l.type)).length := by
  intro links doc_types outcomes h
  unfold download_selected_documents
  split
  · next hz =>
    rw [hz]
    rfl
  · next hz =>
    rw [processLinks_length]
    rw [List.length_zip, h, min_self]
    simp

/-- Witness for C10: one success, one failure, one raised exception out of
three filtered references (a fourth reference is filtered out). -/
theorem C10_accounting_witness :
    ([(⟨"2023", "PPT", "u1"⟩ : LinkInfo), ⟨"2022", "Transcript", "u2"⟩,
        ⟨"2021", "Annual_Report", "u3"⟩, ⟨"2020", "PPT", "u4"⟩].filter
      (fun l => (["PPT", "Transcript"] : List String).contains l.type)).length = 3 ∧
    (download_selected_documents
      [⟨"2023", "PPT", "u1"⟩, ⟨"2022", "Transcript", "u2"⟩,
        ⟨"2021", "Annual_Report", "u3"⟩, ⟨"2020", "PPT", "u4"⟩]
      ["PPT", "Transcript"]
      [.success "2023_PPT.pdf" [1], .failure (some "DOWNLOAD_FAILED") none,
        .raised "boom"]).1.length +
    (download_selected_documents
      [⟨"2023", "PPT", "u1"⟩, ⟨"2022", "Transcript", "u2"⟩,
        ⟨"2021", "Annual_Report", "u3"⟩, ⟨"2020", "PPT", "u4"⟩]
      ["PPT", "Transcript"]
      [.success "2023_PPT.pdf" [1], .failure (some "DOWNLOAD_FAILED") none,
        .raised "boom"]).2.length = 3 :=
  ⟨by decide,
   C10_accounting
    [⟨"2023", "PPT", "u1"⟩, ⟨"2022", "Transcript", "u2"⟩,
      ⟨"2021", "Annual_Report", "u3"⟩, ⟨"2020", "PPT", "u4"⟩]
    ["PPT", "Transcript"]
    [.success "2023_PPT.pdf" [1], .failure (some "DOWNLOAD_FAILED") none,
      .raised "boom"] (by decide) |>.trans (by decide)⟩
